import Mathlib

/-!
Verification development for the clap-backend service.

The repository ships two variants of the same counter-with-rate-limit
contract:

* a D1 (relational) worker, `src/unnamed/part_000`: slug validation,
  salted SHA-256 client hashing, an in-process debounce map, an atomic
  conditional upsert for the per-window rate-limit row, an atomic upsert
  for the global clap counter (both submitted in one `DB.batch`), and a
  scheduled compactor that deletes expired rate-limit rows in batches;
* a KV worker, `src/worker.js`: slug validation, a read-check-write rate
  limiter keyed on the arrival time of the first request, and a
  read-add-write update of the global counter.

Every definition below is a shallow embedding of the corresponding
source function; section comments name the file and lines it comes from.
-/

/-! ## Shared constants and slug validation
Source: `src/unnamed/part_000` lines 6-10 and 24-30, `src/worker.js`
lines 7-8 and 18-24 (the slug code is identical in both variants). -/

/-- RATE_LIMIT_WINDOW_MS, one hour, identical in both workers. -/
def RATE_LIMIT_WINDOW_MS : ℕ := 60 * 60 * 1000

/-- DEBOUNCE_MS from `part_000` line 7. -/
def DEBOUNCE_MS : ℕ := 500

/-- MAX_SLUG_LEN from `part_000` line 25 and `worker.js` line 19. -/
def MAX_SLUG_LEN : ℕ := 200

/-- First character class of SLUG_RE: a lowercase ASCII letter or digit. -/
def isSlugStartChar (c : Char) : Bool :=
  (97 ≤ c.toNat && c.toNat ≤ 122) || (48 ≤ c.toNat && c.toNat ≤ 57)

/-- Repeated character class of SLUG_RE: the start class plus dot (46),
underscore (95), colon (58), apostrophe (39) and hyphen (45). -/
def isSlugBodyChar (c : Char) : Bool :=
  isSlugStartChar c || c.toNat = 46 || c.toNat = 95 || c.toNat = 58 ||
    c.toNat = 39 || c.toNat = 45

/-- Whether SLUG_RE (anchored at both ends) matches the string: one start
character followed by any number of body characters. -/
def slugMatchesPattern (s : String) : Bool :=
  match s.data with
  | [] => false
  | c :: cs => isSlugStartChar c && cs.all isSlugBodyChar

/-- isValidSlug from `part_000` lines 27-30 and `worker.js` lines 21-24:
reject the empty (falsy) string and strings longer than MAX_SLUG_LEN,
then test the regular expression. -/
def isValidSlug (s : String) : Bool :=
  if s.length = 0 || MAX_SLUG_LEN < s.length then false
  else slugMatchesPattern s

/-! ## Environment configuration
Source: `part_000` lines 9-10 (parseInt with fallback defaults), line 33
(IP_HASH_SALT fallback) and lines 14-22 (ALLOWED_ORIGINS).  The origin
list is modelled as the already-parsed set of allowed origin strings;
the comma-splitting of the raw environment variable is CORS plumbing the
specification places out of scope. -/

structure Env where
  maxClapsPerIpVar : Option ℤ
  maxClapsPerRequestVar : Option ℤ
  ipHashSaltVar : Option String
  allowedOrigins : List String

/-- getMaxClapsPerIp: parseInt of the variable, with 0 and NaN (modelled
as `none`) falling back to 50 through the JS or-operator. -/
def getMaxClapsPerIp (env : Env) : ℤ :=
  match env.maxClapsPerIpVar with
  | none => 50
  | some n => if n = 0 then 50 else n

/-- getMaxClapsPerRequest: same shape as getMaxClapsPerIp, default 10. -/
def getMaxClapsPerRequest (env : Env) : ℤ :=
  match env.maxClapsPerRequestVar with
  | none => 10
  | some n => if n = 0 then 10 else n

/-- Salt resolution from `part_000` line 33: env.IP_HASH_SALT or the
empty string. -/
def getIpHashSalt (env : Env) : String :=
  env.ipHashSaltVar.getD ""

/-! ## SHA-256 and the identity hasher
Source: `part_000` lines 32-37.  The worker calls
crypto.subtle.digest with SHA-256 over the UTF-8 bytes of
salt ++ ":" ++ input and hex-encodes the digest; the definitions below
implement FIPS 180-4 SHA-256 over byte lists so the hasher is a total
computable function. -/

/-- Right rotation of a 32-bit word. -/
def rotr32 (n x : ℕ) : ℕ := ((x >>> n) ||| (x <<< (32 - n))) % 4294967296

/-- Choice function of the SHA-256 round. -/
def shaCh (x y z : ℕ) : ℕ := (x &&& y) ^^^ ((x ^^^ 4294967295) &&& z)

/-- Majority function of the SHA-256 round. -/
def shaMaj (x y z : ℕ) : ℕ := (x &&& y) ^^^ (x &&& z) ^^^ (y &&& z)

/-- Big sigma-0 of the SHA-256 round. -/
def bigSigma0 (x : ℕ) : ℕ := rotr32 2 x ^^^ rotr32 13 x ^^^ rotr32 22 x

/-- Big sigma-1 of the SHA-256 round. -/
def bigSigma1 (x : ℕ) : ℕ := rotr32 6 x ^^^ rotr32 11 x ^^^ rotr32 25 x

/-- Small sigma-0 of the message schedule. -/
def smallSigma0 (x : ℕ) : ℕ := rotr32 7 x ^^^ rotr32 18 x ^^^ (x >>> 3)

/-- Small sigma-1 of the message schedule. -/
def smallSigma1 (x : ℕ) : ℕ := rotr32 17 x ^^^ rotr32 19 x ^^^ (x >>> 10)

/-- The 64 SHA-256 round constants. -/
def shaK : List ℕ := [
  1116352408, 1899447441, 3049323471, 3921009573, 961987163,
  1508970993, 2453635748, 2870763221, 3624381080, 310598401,
  607225278, 1426881987, 1925078388, 2162078206, 2614888103,
  3248222580, 3835390401, 4022224774, 264347078, 604807628,
  770255983, 1249150122, 1555081692, 1996064986, 2554220882,
  2821834349, 2952996808, 3210313671, 3336571891, 3584528711,
  113926993, 338241895, 666307205, 773529912, 1294757372,
  1396182291, 1695183700, 1986661051, 2177026350, 2456956037,
  2730485921, 2820302411, 3259730800, 3345764771, 3516065817,
  3600352804, 4094571909, 275423344, 430227734, 506948616,
  659060556, 883997877, 958139571, 1322822218, 1537002063,
  1747873779, 1955562222, 2024104815, 2227730452, 2361852424,
  2428436474, 2756734187, 3204031479, 3329325298]

/-- Working state of the compression function: eight 32-bit words. -/
structure ShaState where
  a : ℕ
  b : ℕ
  c : ℕ
  d : ℕ
  e : ℕ
  f : ℕ
  g : ℕ
  h : ℕ
deriving DecidableEq

/-- The SHA-256 initial hash value. -/
def shaInit : ShaState :=
  ⟨1779033703, 3144134277, 1013904242, 2773480762, 1359893119, 2600822924, 528734635, 1541459225⟩

/-- Next word of the message schedule, computed from the last 16 words
already produced. -/
def scheduleStep (w : List ℕ) : ℕ :=
  let n := w.length
  (smallSigma1 (w.getD (n - 2) 0) + w.getD (n - 7) 0 +
    smallSigma0 (w.getD (n - 15) 0) + w.getD (n - 16) 0) % 4294967296

/-- Extend a 16-word block to the full 64-word schedule. -/
def extendSchedule : List ℕ → ℕ → List ℕ
  | w, 0 => w
  | w, n + 1 => extendSchedule (w ++ [scheduleStep w]) n

/-- One round of the SHA-256 compression function. -/
def compressStep (s : ShaState) (kw : ℕ × ℕ) : ShaState :=
  let t1 := (s.h + bigSigma1 s.e + shaCh s.e s.f s.g + kw.1 + kw.2) % 4294967296
  let t2 := (bigSigma0 s.a + shaMaj s.a s.b s.c) % 4294967296
  ⟨(t1 + t2) % 4294967296, s.a, s.b, s.c, (s.d + t1) % 4294967296, s.e, s.f, s.g⟩

/-- Word-wise modular addition of two compression states. -/
def addStates (x y : ShaState) : ShaState :=
  ⟨(x.a + y.a) % 4294967296, (x.b + y.b) % 4294967296, (x.c + y.c) % 4294967296,
   (x.d + y.d) % 4294967296, (x.e + y.e) % 4294967296, (x.f + y.f) % 4294967296,
   (x.g + y.g) % 4294967296, (x.h + y.h) % 4294967296⟩

/-- Process one 512-bit block. -/
def processBlock (s : ShaState) (block : List ℕ) : ShaState :=
  let w := extendSchedule block 48
  addStates s ((shaK.zip w).foldl compressStep s)

/-- Big-endian packing of bytes into 32-bit words. -/
def bytesToWords : List ℕ → List ℕ
  | b0 :: b1 :: b2 :: b3 :: rest =>
      (((b0 <<< 24) ||| (b1 <<< 16) ||| (b2 <<< 8) ||| b3) % 4294967296) :: bytesToWords rest
  | _ => []

/-- Standard SHA-256 padding: a 0x80 byte, zeros up to 56 mod 64, and the
bit length as a 64-bit big-endian integer. -/
def padMessage (msg : List ℕ) : List ℕ :=
  let len := msg.length
  let zeros := (119 - len % 64) % 64
  msg ++ [0x80] ++ List.replicate zeros 0 ++
    (List.range 8).map (fun i => ((8 * len) >>> (56 - 8 * i)) % 256)

/-- Fuel-indexed chunking of the word stream into 16-word blocks; the
fuel is an upper bound on the number of words, so the list is always
consumed completely. -/
def chunkWordsAux : ℕ → List ℕ → List (List ℕ)
  | 0, _ => []
  | _, [] => []
  | fuel + 1, ws => ws.take 16 :: chunkWordsAux fuel (ws.drop 16)

/-- Split a padded word stream into 16-word blocks. -/
def chunkWords (ws : List ℕ) : List (List ℕ) := chunkWordsAux ws.length ws

/-- Big-endian bytes of one 32-bit word. -/
def wordToBytes (w : ℕ) : List ℕ :=
  [(w >>> 24) % 256, (w >>> 16) % 256, (w >>> 8) % 256, w % 256]

/-- The 32 digest bytes of a final compression state. -/
def digestBytes (s : ShaState) : List ℕ :=
  wordToBytes s.a ++ wordToBytes s.b ++ wordToBytes s.c ++ wordToBytes s.d ++
  wordToBytes s.e ++ wordToBytes s.f ++ wordToBytes s.g ++ wordToBytes s.h

/-- SHA-256 of a byte list. -/
def sha256Bytes (msg : List ℕ) : List ℕ :=
  digestBytes ((chunkWords (bytesToWords (padMessage msg))).foldl processBlock shaInit)

/-- Lowercase hex digit, as produced by toString(16) in the worker. -/
def hexChar (n : ℕ) : Char := if n < 10 then Char.ofNat (48 + n) else Char.ofNat (87 + n)

/-- Hex encoding of a byte list, two lowercase digits per byte as in
`part_000` line 36. -/
def bytesToHexString (bs : List ℕ) : String :=
  String.mk (bs.foldr (fun b acc => hexChar (b / 16) :: hexChar (b % 16) :: acc) [])

/-- UTF-8 encoding of one code point, as produced by TextEncoder. -/
def utf8Bytes (c : ℕ) : List ℕ :=
  if c < 0x80 then [c]
  else if c < 0x800 then [0xc0 ||| (c >>> 6), 0x80 ||| (c &&& 0x3f)]
  else if c < 0x10000 then
    [0xe0 ||| (c >>> 12), 0x80 ||| ((c >>> 6) &&& 0x3f), 0x80 ||| (c &&& 0x3f)]
  else
    [0xf0 ||| (c >>> 18), 0x80 ||| ((c >>> 12) &&& 0x3f),
     0x80 ||| ((c >>> 6) &&& 0x3f), 0x80 ||| (c &&& 0x3f)]

/-- UTF-8 bytes of a string. -/
def stringBytes (s : String) : List ℕ :=
  (s.data.map (fun c => utf8Bytes c.toNat)).flatten

/-- The preimage handed to the digest in `part_000` line 34:
salt ++ ":" ++ input. -/
def saltedMessage (salt input : String) : String := salt ++ ":" ++ input

/-- sha256Hex from `part_000` lines 32-37: hex digest of the salted
input, with the salt read from the environment. -/
def sha256Hex (env : Env) (input : String) : String :=
  bytesToHexString (sha256Bytes (stringBytes (saltedMessage (getIpHashSalt env) input)))

/-! ## D1 variant data model
Source: `src/migrations/0001_init.sql` and `part_000` lines 112-130. -/

/-- One row of the rate_limits table at a fixed
(ip_hash, slug, window_start) key. -/
structure RLEntry where
  count : ℤ
  updatedAt : ℕ
deriving DecidableEq

/-- One row of the claps table at a fixed slug. -/
structure ClapsEntry where
  count : ℤ
  updatedAt : ℕ
deriving DecidableEq

/-- Per-key semantics of rateLimitStmt (`part_000` lines 112-119): an
insert-or-update conditional upsert.  A missing row is inserted with
count = amount; this insert arm carries no condition.  A present row is
updated to count + amount only when the post-merge sum stays at or below
the limit, and is left untouched (zero changed rows, first component
false) otherwise. -/
def tryAdmit (limit : ℤ) (now : ℕ) (amount : ℤ) (prior : Option RLEntry) :
    Bool × Option RLEntry :=
  match prior with
  | none => (true, some ⟨amount, now⟩)
  | some e =>
      if e.count + amount ≤ limit then (true, some ⟨e.count + amount, now⟩)
      else (false, some e)

/-- Per-slug semantics of clapsStmt (`part_000` lines 121-128): an
unconditional insert-or-add upsert whose RETURNING clause yields the
resulting count. -/
def clapsUpsert (amount : ℤ) (now : ℕ) (prior : Option ClapsEntry) : ClapsEntry :=
  match prior with
  | none => ⟨amount, now⟩
  | some e => ⟨e.count + amount, now⟩

/-- windowStart from `part_000` line 110: floor division aligns the
window to multiples of RATE_LIMIT_WINDOW_MS. -/
def windowStart (now : ℕ) : ℕ :=
  now / RATE_LIMIT_WINDOW_MS * RATE_LIMIT_WINDOW_MS

/-- Requested amount resolution from `part_000` lines 102-107: the body
count converted by Number, kept only when finite (a missing body, an
unparsable body or a non-finite conversion is modelled as `none`),
defaulting to 1. -/
def requestedOf (body : Option ℚ) : ℚ := body.getD 1

/-- incrementBy from `part_000` line 109: floor, then clamp from below
by 1 and from above by the per-request ceiling. -/
def incrementBy (env : Env) (requested : ℚ) : ℤ :=
  min (max (Rat.floor requested) 1) (getMaxClapsPerRequest env)

/-- Mutable state touched by the D1 worker: the in-process debounce map
(`part_000` line 72) plus the two D1 tables, each modelled as a function
from its primary key to an optional row. -/
structure D1State where
  lastRequestTime : String → Option ℕ
  rateLimits : String → String → ℕ → Option RLEntry
  claps : String → Option ClapsEntry

/-- Outcomes of the D1 POST handler, in source order of the returns. -/
inductive D1PostResult where
  | invalidSlug
  | forbidden
  | tooFast
  | rateLimited
  | ok (count : ℤ)
deriving DecidableEq

/-- Outcomes of the read endpoints, shared by both variants. -/
inductive GetResult where
  | invalidSlug
  | ok (count : ℤ)
deriving DecidableEq

/-- One POST request as the D1 handler sees it: route slug, Origin
header, connecting address, numeric body count (see requestedOf) and the
Date.now() timestamp. -/
structure D1Request where
  slug : String
  origin : Option String
  ip : String
  body : Option ℚ
  now : ℕ

/-- GET /claps/:slug of the D1 worker (`part_000` lines 55-70): validate
the slug, then read the count, absent rows reading as 0. -/
def d1Get (st : D1State) (slug : String) : GetResult :=
  if isValidSlug slug = false then .invalidSlug
  else .ok (((st.claps slug).map ClapsEntry.count).getD 0)

/-- POST /claps/:slug of the D1 worker (`part_000` lines 75-145).
Control flow in source order: slug validation, Origin presence and
allow-list check, debounce lookup against the hashed-ip:slug key,
debounce map write, amount clamping, window computation, then one
DB.batch submitting rateLimitStmt and clapsStmt together.  Both
statements of the batch execute: the claps upsert is applied to the
state even on the rate-limited path, exactly as in the source. -/
def d1Post (env : Env) (st : D1State) (r : D1Request) : D1PostResult × D1State :=
  if isValidSlug r.slug = false then (.invalidSlug, st)
  else
    match r.origin with
    | none => (.forbidden, st)
    | some o =>
      if o ∉ env.allowedOrigins then (.forbidden, st)
      else
        let ipHash := sha256Hex env r.ip
        let key := ipHash ++ ":" ++ r.slug
        let lastTime := (st.lastRequestTime key).getD 0
        if (r.now : ℤ) - lastTime < DEBOUNCE_MS then (.tooFast, st)
        else
          let st1 : D1State :=
            { st with lastRequestTime := fun k => if k = key then some r.now else st.lastRequestTime k }
          let inc := incrementBy env (requestedOf r.body)
          let ws := windowStart r.now
          let rlOutcome := tryAdmit (getMaxClapsPerIp env) r.now inc (st.rateLimits ipHash r.slug ws)
          let newClaps := clapsUpsert inc r.now (st.claps r.slug)
          let st2 : D1State :=
            { st1 with
              rateLimits := fun h s w =>
                if h = ipHash ∧ s = r.slug ∧ w = ws then rlOutcome.2 else st.rateLimits h s w,
              claps := fun s => if s = r.slug then some newClaps else st.claps s }
          if rlOutcome.1 = false then (.rateLimited, st2)
          else (.ok newClaps.count, st2)

/-- Sequential processing of a request list by the D1 POST handler. -/
def runD1 (env : Env) (st : D1State) (rs : List D1Request) : D1State :=
  rs.foldl (fun s r => (d1Post env s r).2) st

/-- A D1 state with empty debounce map and empty tables. -/
def emptyD1State : D1State :=
  ⟨fun _ => none, fun _ _ _ => none, fun _ => none⟩

/-! ## KV variant
Source: `src/worker.js`.  The KV namespace stores stringified values
under composite string keys; the store is modelled after parsing.  The
request body is JSON and its count field flows into the JavaScript
numeric operators by coercion, so amounts are modelled as JavaScript
numbers: NaN, one of the two infinities, or a finite value.  A truthy
non-numeric count (for example a JSON string of letters) coerces to
NaN, and a numeric string beyond double range coerces to an infinity. -/

/-- A JavaScript number as the KV worker can observe one: NaN, an
infinity, or a finite value. -/
inductive JSNum where
  | nan
  | posInf
  | negInf
  | num (q : ℚ)
deriving DecidableEq

/-- Math.max on two JavaScript numbers: NaN if either argument is NaN,
otherwise the larger, the infinities ordered around all finite
values. -/
def jsMax : JSNum → JSNum → JSNum
  | .nan, _ => .nan
  | _, .nan => .nan
  | .posInf, _ => .posInf
  | _, .posInf => .posInf
  | .negInf, b => b
  | a, .negInf => a
  | .num a, .num b => .num (max a b)

/-- Math.min on two JavaScript numbers, dual to jsMax. -/
def jsMin : JSNum → JSNum → JSNum
  | .nan, _ => .nan
  | _, .nan => .nan
  | .negInf, _ => .negInf
  | _, .negInf => .negInf
  | .posInf, b => b
  | a, .posInf => a
  | .num a, .num b => .num (min a b)

/-- Addition of JavaScript numbers: NaN propagates, opposite infinities
give NaN, an infinity absorbs any finite value. -/
def jsAdd : JSNum → JSNum → JSNum
  | .nan, _ => .nan
  | _, .nan => .nan
  | .posInf, .negInf => .nan
  | .negInf, .posInf => .nan
  | .posInf, _ => .posInf
  | _, .posInf => .posInf
  | .negInf, _ => .negInf
  | _, .negInf => .negInf
  | .num a, .num b => .num (a + b)

/-- Strict greater-than on JavaScript numbers: false whenever either
side is NaN. -/
def jsGt : JSNum → JSNum → Bool
  | .nan, _ => false
  | _, .nan => false
  | .posInf, .posInf => false
  | .posInf, _ => true
  | _, .posInf => false
  | .negInf, _ => false
  | .num _, .negInf => true
  | .num a, .num b => decide (b < a)

/-- Whether a JavaScript number is a finite value inside the interval
from 1 to 10 — the range the amount clamp is supposed to enforce.  NaN
and the infinities are outside every interval. -/
def jsClamped (v : JSNum) : Bool :=
  match v with
  | .num q => decide (1 ≤ q ∧ q ≤ 10)
  | _ => false

/-- Rate-limit record of the KV worker (`worker.js` line 105): a count
and the timestamp of the first request that opened the window. -/
structure KVRateData where
  count : JSNum
  start : ℕ
deriving DecidableEq

/-- Parsed view of one stored KV value. -/
inductive KVValue where
  | num (value : JSNum)
  | rl (data : KVRateData)
deriving DecidableEq

/-- The KV namespace, one optional value per string key. -/
structure KVState where
  store : String → Option KVValue

/-- getClapKey from `worker.js` line 42. -/
def getClapKey (slug : String) : String := "claps:" ++ slug

/-- getRateLimitKey from `worker.js` line 43. -/
def getRateLimitKey (ip slug : String) : String := "rl:" ++ ip ++ ":" ++ slug

/-- Truncation toward zero, the value parseInt recovers from the
decimal rendering of a finite value (Int.tdiv is T-division). -/
def truncRat (q : ℚ) : ℤ := Int.tdiv q.num (q.den : ℤ)

/-- parseInt applied to the stored rendering of a JavaScript number: a
finite value truncates toward zero at the decimal point, while the
renderings of NaN and of the infinities do not start with a digit and
parse to NaN. -/
def kvStoredParse : JSNum → JSNum
  | .num q => .num ((truncRat q : ℤ) : ℚ)
  | _ => .nan

/-- Clap-count read of the KV worker (`worker.js` lines 61-63 and
124-125): parseInt of the stored string, an absent key reading as 0 and
a stored non-numeric rendering parsing to NaN (a rate-limit record
under a clap key cannot arise through the handlers). -/
def kvReadClaps (st : KVState) (slug : String) : JSNum :=
  match st.store (getClapKey slug) with
  | some (KVValue.num v) => kvStoredParse v
  | some (KVValue.rl _) => .nan
  | none => .num 0

/-- Rate-limit read of the KV worker (`worker.js` line 101). -/
def kvReadRl (st : KVState) (ip slug : String) : Option KVRateData :=
  match st.store (getRateLimitKey ip slug) with
  | some (KVValue.rl d) => some d
  | _ => none

/-- Amount clamp of the KV worker (`worker.js` line 95):
Math.min(Math.max(body.count or 1, 1), 10).  A missing or unparsable
body is parsed as count 1, and a falsy count (absent, null, false or
the empty string, modelled as none, as well as the literal number 0) is
replaced by 1 through the or-operator before the clamp.  A truthy
non-numeric count coerces to NaN, which both Math.max and Math.min
propagate, so NaN passes the clamp unchanged.  There is no flooring. -/
def kvIncrementBy (body : Option JSNum) : JSNum :=
  jsMin (jsMax (match body with
      | none => .num 1
      | some (.num q) => if q = 0 then .num 1 else .num q
      | some v => v) (.num 1)) (.num 10)

/-- Window refresh of the KV worker (`worker.js` lines 104-106): keep
the stored record unless it is absent or strictly older than the window
length, in which case a fresh record anchored at the current time is
used.  The window start is the arrival time of the first request, not
an aligned multiple of the window length. -/
def kvRlRefresh (now : ℕ) (prior : Option KVRateData) : KVRateData :=
  match prior with
  | none => ⟨.num 0, now⟩
  | some r => if RATE_LIMIT_WINDOW_MS < (now : ℤ) - r.start then ⟨.num 0, now⟩ else r

/-- MAX_CLAPS_PER_IP of the KV worker (`worker.js` line 8), a
hard-coded constant there rather than configuration. -/
def kvMaxClapsPerIp : JSNum := .num 50

/-- Outcomes of the KV POST handler. -/
inductive KVPostResult where
  | invalidSlug
  | forbidden
  | rateLimited
  | ok (count : JSNum)
deriving DecidableEq

/-- Outcomes of the KV read endpoint. -/
inductive KVGetResult where
  | invalidSlug
  | ok (count : JSNum)
deriving DecidableEq

/-- GET /claps/:slug of the KV worker (`worker.js` lines 51-66). -/
def kvGet (st : KVState) (slug : String) : KVGetResult :=
  if isValidSlug slug = false then .invalidSlug
  else .ok (kvReadClaps st slug)

/-- POST /claps/:slug of the KV worker (`worker.js` lines 70-131), as
one sequential execution: slug validation, origin check (a missing
Origin header is allowed in this variant), amount clamp, read-check of
the rate limit with the JavaScript comparison (false, hence admitting,
when the sum is NaN), write-back of the refreshed record, then the
read-add-write of the global counter. -/
def kvPost (env : Env) (st : KVState) (slug : String) (origin : Option String)
    (ip : String) (body : Option JSNum) (now : ℕ) : KVPostResult × KVState :=
  if isValidSlug slug = false then (.invalidSlug, st)
  else
    let originRejected := match origin with
      | none => false
      | some o => decide (o ∉ env.allowedOrigins)
    if originRejected then (.forbidden, st)
    else
      let inc := kvIncrementBy body
      let rlData := kvRlRefresh now (kvReadRl st ip slug)
      if jsGt (jsAdd rlData.count inc) kvMaxClapsPerIp then (.rateLimited, st)
      else
        let rlData1 : KVRateData := ⟨jsAdd rlData.count inc, rlData.start⟩
        let st1 : KVState :=
          ⟨fun k => if k = getRateLimitKey ip slug then some (.rl rlData1) else st.store k⟩
        let current := kvReadClaps st1 slug
        let newCount := jsAdd current inc
        let st2 : KVState :=
          ⟨fun k => if k = getClapKey slug then some (.num newCount) else st1.store k⟩
        (.ok newCount, st2)

/-! ## Interleaving model of the KV counter update
Source: `worker.js` lines 124-128.  The counter update there is a get,
a caller-side addition, and a put.  Two concurrently running handlers A
and B on the same slug are modelled as a shared counter plus one local
register per handler; a schedule is a list of read and write steps. -/

/-- One step of a concurrent KV counter race: a handler either reads the
shared counter into its register or writes register + amount back. -/
inductive KVCounterStep where
  | readA
  | readB
  | writeA
  | writeB
deriving DecidableEq

/-- Shared counter and the two handler-local registers. -/
structure KVRace where
  count : ℤ
  regA : ℤ
  regB : ℤ
deriving DecidableEq

/-- Semantics of one race step, mirroring `worker.js` lines 124-128:
the read is the get-and-parse, the write stores register + amount. -/
def kvRaceStep (amountA amountB : ℤ) (s : KVRace) : KVCounterStep → KVRace
  | .readA => ⟨s.count, s.count, s.regB⟩
  | .readB => ⟨s.count, s.regA, s.count⟩
  | .writeA => ⟨s.regA + amountA, s.regA, s.regB⟩
  | .writeB => ⟨s.regB + amountB, s.regA, s.regB⟩

/-- Execution of a schedule of race steps. -/
def kvRaceRun (amountA amountB : ℤ) (steps : List KVCounterStep) (s : KVRace) : KVRace :=
  steps.foldl (kvRaceStep amountA amountB) s

/-- Sequential application of a list of admitted (amount, timestamp)
increments through the atomic claps upsert of the D1 variant.  Because
each upsert is a single indivisible statement, any interleaving of N
admitted increments is exactly one such list. -/
def d1ApplyIncrements (incs : List (ℤ × ℕ)) (prior : Option ClapsEntry) : Option ClapsEntry :=
  incs.foldl (fun p a => some (clapsUpsert a.1 a.2 p)) prior

/-- Count stored in an optional claps row, an absent row reading as 0. -/
def clapsCountOf (p : Option ClapsEntry) : ℤ := (p.map ClapsEntry.count).getD 0

/-- Count stored in an optional rate-limit row, an absent row reading
as 0. -/
def rlCountOf (p : Option RLEntry) : ℤ := (p.map RLEntry.count).getD 0

/-- Sequential admission attempts against one fixed
(client_token, resource_id, window_start) key: each attempt is one
execution of rateLimitStmt with its amount and timestamp. -/
def rlFoldKey (limit : ℤ) (attempts : List (ℤ × ℕ)) (prior : Option RLEntry) :
    Option RLEntry :=
  attempts.foldl (fun p a => (tryAdmit limit a.2 a.1 p).2) prior

/-! ## Window compactor
Source: `part_000` lines 147-167: the scheduled handler loops a DELETE
of at most 1000 rate_limits rows whose window_start lies before
now minus two hours, ordered by window_start, until a batch deletes
fewer rows than the batch size. -/

/-- One rate_limits row as scanned by the compactor. -/
structure RLRow where
  ipHash : String
  slug : String
  windowStart : ℕ
  count : ℤ
  updatedAt : ℕ
deriving DecidableEq

/-- Whether a row falls before the retention cutoff
(the WHERE window_start < cutoff clause). -/
def isExpiredRow (cutoff : ℤ) (r : RLRow) : Bool := decide ((r.windowStart : ℤ) < cutoff)

/-- BATCH_SIZE from `part_000` line 151. -/
def BATCH_SIZE : ℕ := 1000

/-- The rows one DELETE statement removes: expired rows, ordered by
window_start, limited to BATCH_SIZE. -/
def selectBatch (cutoff : ℤ) (rows : List RLRow) : List RLRow :=
  ((rows.filter (isExpiredRow cutoff)).insertionSort
      (fun a b => a.windowStart ≤ b.windowStart)).take BATCH_SIZE

/-- The while(true) loop of the scheduled handler: delete one batch,
stop as soon as a batch deletes fewer rows than BATCH_SIZE. -/
def compactLoop (cutoff : ℤ) (rows : List RLRow) : List RLRow :=
  let batch := selectBatch cutoff rows
  let remaining := rows.diff batch
  if batch.length < BATCH_SIZE then remaining else compactLoop cutoff remaining
termination_by rows.length
decreasing_by
  have hguard : ¬ (selectBatch cutoff rows).length < BATCH_SIZE := by assumption
  have hsub : List.Subperm (selectBatch cutoff rows) (rows.filter (isExpiredRow cutoff)) :=
    ((List.take_sublist _ _).subperm).trans (List.perm_insertionSort _ _).subperm
  have hsub2 : List.Subperm (selectBatch cutoff rows) rows :=
    hsub.trans (List.filter_sublist rows).subperm
  have hle : ((selectBatch cutoff rows : List RLRow) : Multiset RLRow) ≤ ↑rows :=
    Multiset.coe_le.mpr hsub2
  have hcards := congrArg Multiset.card (Multiset.coe_sub rows (selectBatch cutoff rows))
  rw [Multiset.card_sub hle, Multiset.coe_card, Multiset.coe_card, Multiset.coe_card] at hcards
  have hlb : (selectBatch cutoff rows).length ≤ rows.length := hsub2.length_le
  simp only [BATCH_SIZE] at hguard
  omega

/-- The scheduled entry point (`part_000` lines 149-166): cutoff is
Date.now() minus two hours, which is twice RATE_LIMIT_WINDOW_MS. -/
def scheduledCompaction (now : ℕ) (rows : List RLRow) : List RLRow :=
  compactLoop ((now : ℤ) - 2 * 60 * 60 * 1000) rows

/-! ## Concrete fixtures used by the closed evaluations below -/

/-- An environment with every variable unset except the hashing salt and
one allowed origin, so both ceilings take their defaults 50 and 10. -/
def envDefault : Env := ⟨none, none, some "pepper", ["https://example.org"]⟩

/-- An environment whose per-request ceiling is configured to 60, above
the (default) per-window ceiling 50. -/
def envRaisedPerRequest : Env := ⟨none, some 60, none, []⟩

/-- An environment that only sets the salt, value a. -/
def envSaltA : Env := ⟨none, none, some "salt-a", []⟩

/-- An environment that only sets the salt, value b. -/
def envSaltB : Env := ⟨none, none, some "salt-b", []⟩

/-- A D1 state whose rate-limit row already sits at the default ceiling
50 for every key, with the claps row for every slug at count 7. -/
def d1StateAtLimit : D1State :=
  ⟨fun _ => none, fun _ _ _ => some ⟨50, 0⟩, fun _ => some ⟨7, 0⟩⟩

/-- A POST request for slug my-post with an allowed origin, no body and
a recent timestamp. -/
def reqAtLimit : D1Request :=
  ⟨"my-post", some "https://example.org", "203.0.113.9", none, 1700000000000⟩

/-- An empty KV namespace. -/
def emptyKVState : KVState := ⟨fun _ => none⟩

/-- A KV namespace holding one rate-limit record at count 50 anchored at
time 0 for address 203.0.113.9 and slug my-post. -/
def kvStateAtLimit : KVState :=
  ⟨fun k => if k = getRateLimitKey "203.0.113.9" "my-post"
      then some (.rl ⟨.num 50, 0⟩) else none⟩

/-- First request of the debounce witness scenario. -/
def reqFirst : D1Request :=
  ⟨"my-post", some "https://example.org", "203.0.113.9", none, 1700000000000⟩

/-- Second request of the debounce witness scenario, 300 ms later. -/
def reqSecond : D1Request :=
  ⟨"my-post", some "https://example.org", "203.0.113.9", none, 1700000000300⟩

/-! ## Theorems -/

/-- Claim C4, counterexample: in the KV worker the admission check for a
first request arriving at time 1000 uses a window anchored at 1000, the
arrival time of that first request, whereas the fixed aligned window of
time 1000 starts at floor(1000 / W) * W = 0.  The window the admission
check uses therefore depends on when the first request of the client arrived
and is not the aligned window the claim describes. -/
theorem c4_counterexample :
    (kvRlRefresh 1000 none).start = 1000 ∧ windowStart 1000 = 0 ∧
      (kvRlRefresh 3600000 (some ⟨.num 50, 0⟩)).start = 0 ∧ windowStart 3600000 = 3600000 := by
  decide

/-- Claim C4 (amended): in the D1 worker the admission window is the
fixed window floor(now / W) * W of length W = 1 hour: it contains now,
is aligned to a multiple of W, and two instants share a window start
exactly when they lie in the same aligned interval, independently of any
per-client state.  In the KV worker, by contrast, a fresh rate-limit
record anchors its window at the arrival time of the current request. -/
theorem c4_window :
    (∀ now : ℕ, windowStart now ≤ now ∧ now < windowStart now + RATE_LIMIT_WINDOW_MS ∧
        RATE_LIMIT_WINDOW_MS ∣ windowStart now) ∧
    (∀ n m : ℕ, windowStart n = windowStart m ↔
        n / RATE_LIMIT_WINDOW_MS = m / RATE_LIMIT_WINDOW_MS) ∧
    (∀ now : ℕ, (kvRlRefresh now none).start = now) := by
  refine ⟨fun now => ⟨?_, ?_, ?_⟩, fun n m => ⟨fun h => ?_, fun h => ?_⟩, fun now => rfl⟩
  · exact Nat.div_mul_le_self now RATE_LIMIT_WINDOW_MS
  · unfold windowStart RATE_LIMIT_WINDOW_MS
    omega
  · exact ⟨now / RATE_LIMIT_WINDOW_MS, Nat.mul_comm _ _⟩
  · have hW : 0 < RATE_LIMIT_WINDOW_MS := by decide
    unfold windowStart at h
    exact Nat.eq_of_mul_eq_mul_right hW h
  · unfold windowStart
    rw [h]

/-- Claim C4 witness: the aligned-window properties instantiated at the
concrete instant 3700000. -/
theorem c4_window_witness :
    windowStart 3700000 ≤ 3700000 ∧ 3700000 < windowStart 3700000 + RATE_LIMIT_WINDOW_MS ∧
      RATE_LIMIT_WINDOW_MS ∣ windowStart 3700000 :=
  c4_window.1 3700000

/-- Claim C3, counterexample: the KV worker neither floors nor fully
screens invalid amounts.  A request body count of 3.7 is clamped to 3.7
itself, not to the integer 3 the claim requires; and a truthy
non-numeric body count — for example a JSON string of letters — coerces
to NaN, which Math.max and Math.min propagate, so the applied amount is
NaN: not the default 1 the claim requires for invalid input and not a
value in the range from 1 to 10 at all.  The admission check then
passes, because the JavaScript comparison of NaN against the ceiling is
false. -/
theorem c3_counterexample :
    kvIncrementBy (some (.num (mkRat 37 10))) = .num (mkRat 37 10) ∧
    ¬ (JSNum.num (mkRat 37 10) = .num 3) ∧
    kvIncrementBy (some .nan) = .nan ∧
    ¬ (JSNum.nan = .num 1) ∧
    jsClamped (kvIncrementBy (some .nan)) = false ∧
    jsGt (jsAdd (.num 0) (kvIncrementBy (some .nan))) kvMaxClapsPerIp = false := by
  decide

/-- Claim C3 (amended): in the D1 worker the applied amount is
Math.floor of the request clamped into the interval from 1 to the
per-request ceiling, so 0, -5, 999 and 3.7 become 1, 1, 10 (the default
ceiling) and 3, and a missing or invalid amount — anything whose Number
conversion is not finite — defaults to 1; whenever the configured
ceiling is at least 1 the result lies in that interval.  In the KV
worker the amount is clamped into the interval from 1 to 10 without
flooring, so 3.7 is applied as 3.7 while 0, -5 and 999 still become 1,
1 and 10; the clamp holds for every request whose count coerces to a
finite value or an infinity, but a truthy non-numeric count coerces to
NaN, which passes through Math.max and Math.min unchanged, so the
applied amount is then NaN rather than the default 1. -/
theorem c3_clamp :
    (incrementBy envDefault 0 = 1 ∧ incrementBy envDefault (-5) = 1 ∧
     incrementBy envDefault 999 = 10 ∧ incrementBy envDefault (mkRat 37 10) = 3 ∧
     incrementBy envDefault (requestedOf none) = 1) ∧
    (∀ (env : Env) (q : ℚ), 1 ≤ getMaxClapsPerRequest env →
       1 ≤ incrementBy env q ∧ incrementBy env q ≤ getMaxClapsPerRequest env) ∧
    (∀ v : JSNum, v ≠ .nan → jsClamped (kvIncrementBy (some v)) = true) ∧
    jsClamped (kvIncrementBy none) = true ∧
    (kvIncrementBy none = .num 1 ∧ kvIncrementBy (some (.num 0)) = .num 1 ∧
     kvIncrementBy (some (.num (-5))) = .num 1 ∧ kvIncrementBy (some (.num 999)) = .num 10 ∧
     kvIncrementBy (some (.num (mkRat 37 10))) = .num (mkRat 37 10)) ∧
    kvIncrementBy (some .nan) = .nan := by
  refine ⟨by decide, fun env q h => ⟨?_, ?_⟩, fun v hv => ?_, by decide, by decide, by decide⟩
  · unfold incrementBy
    exact le_min (le_max_right _ _) h
  · unfold incrementBy
    exact min_le_right _ _
  · match v with
    | .nan => exact absurd rfl hv
    | .posInf => decide
    | .negInf => decide
    | .num q =>
        by_cases hq : q = 0
        · subst hq
          decide
        · simp only [kvIncrementBy, hq, if_false, jsMax, jsMin, jsClamped]
          rw [decide_eq_true_eq]
          exact ⟨le_min (le_max_right _ _) (by norm_num), min_le_right _ _⟩

/-- Claim C3 witness: the general bounds instantiated at the default
environment with a request of 5/2 on the D1 side and at the coerced
amount plus-infinity (a numeric string beyond double range) on the KV
side, both hypotheses discharged concretely. -/
theorem c3_clamp_witness :
    ((1 : ℤ) ≤ getMaxClapsPerRequest envDefault) ∧
    (1 ≤ incrementBy envDefault (mkRat 5 2) ∧
      incrementBy envDefault (mkRat 5 2) ≤ getMaxClapsPerRequest envDefault) ∧
    jsClamped (kvIncrementBy (some .posInf)) = true :=
  ⟨by decide, c3_clamp.2.1 envDefault (mkRat 5 2) (by decide),
   c3_clamp.2.2.1 .posInf (by decide)⟩

/-- Claim C2, counterexample: the conditional upsert checks the ceiling
only in its update arm.  The first-ever insert for a key is
unconditional, so a single admission attempt of amount 60 against the
default ceiling 50 on an absent row is accepted and stores a count of
60, which already exceeds the ceiling; the claim instead requires such
an update to be rejected with the prior (implicitly zero) count kept.
The amount 60 is reachable because the per-request ceiling is
configurable independently of the per-window ceiling: with
MAX_CLAPS_PER_REQUEST set to 60, a request body of 999 clamps to 60. -/
theorem c2_counterexample :
    (tryAdmit 50 1700000000000 60 none).1 = true ∧
    rlCountOf (tryAdmit 50 1700000000000 60 none).2 = 60 ∧
    ¬ ((60 : ℤ) ≤ 50) ∧
    incrementBy envRaisedPerRequest 999 = 60 := by
  decide

/-- Claim C2 (amended): for every key and every sequence of admission
attempts each of whose amounts is at most the ceiling — which holds for
every request under the default configuration, where amounts are
clamped to at most 10 and the ceiling is 50 — the stored count never
exceeds the ceiling, starting from the absent row; and any individual
attempt the upsert rejects leaves the stored row exactly as it was.
The ceiling check on the first-ever insert is provided by the
per-request clamp, not by the upsert condition, which guards only the
update arm. -/
theorem c2_limit_invariant (limit : ℤ) (attempts : List (ℤ × ℕ))
    (hle : ∀ a ∈ attempts, a.1 ≤ limit) :
    (∀ e, rlFoldKey limit attempts none = some e → e.count ≤ limit) ∧
    (∀ (now : ℕ) (amount : ℤ) (prior : Option RLEntry),
       (tryAdmit limit now amount prior).1 = false →
         (tryAdmit limit now amount prior).2 = prior) := by
  constructor
  · have main : ∀ (l : List (ℤ × ℕ)) (p : Option RLEntry),
        (∀ a ∈ l, a.1 ≤ limit) → (∀ e, p = some e → e.count ≤ limit) →
        ∀ e, rlFoldKey limit l p = some e → e.count ≤ limit := by
      intro l
      induction l with
      | nil =>
          intro p _ hp e he
          simp only [rlFoldKey, List.foldl_nil] at he
          exact hp e he
      | cons a l ih =>
          intro p hl hp e he
          apply ih ((tryAdmit limit a.2 a.1 p).2) (fun b hb => hl b (List.mem_cons_of_mem a hb))
          · intro e' he'
            unfold tryAdmit at he'
            match p, he' with
            | none, he' =>
                simp at he'
                subst he'
                exact hl a (List.mem_cons_self a l)
            | some q, he' =>
                by_cases hc : q.count + a.1 ≤ limit
                · simp [hc] at he'
                  subst he'
                  exact hc
                · simp [hc] at he'
                  subst he'
                  exact hp q rfl
          · exact he
    exact main attempts none hle (by intro e he; cases he)
  · intro now amount prior h
    unfold tryAdmit at h ⊢
    match prior with
    | none => simp at h
    | some q =>
        by_cases hc : q.count + amount ≤ limit
        · simp [hc] at h
        · simp [hc]

/-- Claim C2 witness: the invariant instantiated at ceiling 50 and the
attempt sequence 10 then 45, whose second attempt is rejected, leaving
the stored row at count 10. -/
theorem c2_limit_invariant_witness :
    rlFoldKey 50 [(10, 1), (45, 2)] none = some ⟨10, 1⟩ ∧ (10 : ℤ) ≤ 50 :=
  ⟨by decide, (c2_limit_invariant 50 [(10, 1), (45, 2)] (by decide)).1 ⟨10, 1⟩ (by decide)⟩

/-- Claim C5, counterexample: the KV worker updates the counter by a
read-add-write in the request handler, and under the interleaving
read A, read B, write B, write A of two handlers adding 1 and 5 to a
counter at 0 the stored count moves from 5 after write B down to 1
after write A.  The counter is therefore not monotonically
non-decreasing across operations, and the update is not a single atomic
merge. -/
theorem c5_counterexample :
    (kvRaceRun 1 5 [.readA, .readB, .writeB] ⟨0, 0, 0⟩).count = 5 ∧
    (kvRaceRun 1 5 [.readA, .readB, .writeB, .writeA] ⟨0, 0, 0⟩).count = 1 ∧
    ¬ ((5 : ℤ) ≤ 1) := by
  decide

/-- Claim C5 (amended): in the D1 worker the per-resource counter is
monotonically non-decreasing across every request whenever the
configured per-request ceiling is at least 1 (as it is by default), and
whenever a request changes a stored claps row at all, the new row is
exactly the atomic merge upsert of the old row with the clamped amount —
the handler never writes a counter value produced any other way.  The
KV worker instead performs a read-add-write in the handler, under which
the count can decrease (see the counterexample). -/
theorem c5_monotone (env : Env) (st : D1State) (r : D1Request) (s : String)
    (hceil : 1 ≤ getMaxClapsPerRequest env) :
    clapsCountOf (st.claps s) ≤ clapsCountOf ((d1Post env st r).2.claps s) ∧
    ((d1Post env st r).2.claps s = st.claps s ∨
      (d1Post env st r).2.claps s =
        some (clapsUpsert (incrementBy env (requestedOf r.body)) r.now (st.claps s))) := by
  have hinc : 1 ≤ incrementBy env (requestedOf r.body) :=
    le_min (le_max_right _ _) hceil
  unfold d1Post
  by_cases h1 : isValidSlug r.slug = false
  · simp [h1]
  · simp only [h1, if_false]
    match r.origin with
    | none => simp
    | some o =>
        by_cases h2 : o ∉ env.allowedOrigins
        · simp [h2]
        · simp only [h2, if_false]
          by_cases h3 : (r.now : ℤ) - (st.lastRequestTime (sha256Hex env r.ip ++ ":" ++ r.slug)).getD 0 < DEBOUNCE_MS
          · simp [h3]
          · simp only [h3, if_false]
            by_cases h4 : s = r.slug
            · subst h4
              have hcount : clapsCountOf (st.claps r.slug) ≤
                  clapsCountOf (some (clapsUpsert (incrementBy env (requestedOf r.body))
                    r.now (st.claps r.slug))) := by
                unfold clapsUpsert clapsCountOf
                match hc : st.claps r.slug with
                | none =>
                    simp only [Option.map_none', Option.getD_none, Option.map_some', Option.getD_some]
                    omega
                | some e =>
                    simp only [Option.map_some', Option.getD_some]
                    omega
              constructor
              · simpa [apply_ite Prod.snd] using hcount
              · right
                simp [apply_ite Prod.snd]
            · constructor
              · simp [apply_ite Prod.snd, h4]
              · left
                simp [apply_ite Prod.snd, h4]

/-- Claim C5 witness: monotonicity instantiated at the default
environment, the at-limit state and its request: the stored count for
my-post moves from 7 to 8 and the row change is the atomic merge. -/
theorem c5_monotone_witness :
    clapsCountOf (d1StateAtLimit.claps "my-post") ≤
      clapsCountOf ((d1Post envDefault d1StateAtLimit reqAtLimit).2.claps "my-post") :=
  (c5_monotone envDefault d1StateAtLimit reqAtLimit "my-post" (by decide)).1

/-- Claim C6, counterexample: with the caller-side
read-add-write of the KV worker, the interleaving read A, read B,
write B, write A of two admitted increments of 1 and 5 on a counter at
0 ends at 1, not
at the sum of all admitted amounts: the increment of handler B is lost. -/
theorem c6_counterexample :
    (kvRaceRun 1 5 [.readA, .readB, .writeB, .writeA] ⟨0, 0, 0⟩).count = 1 ∧
    ¬ ((1 : ℤ) = 0 + (1 + 5)) := by
  decide

/-- Claim C6 (amended): in the D1 worker every admitted increment is
applied through the single atomic claps upsert, so for every list of
admitted (amount, timestamp) pairs, applied in whatever order the store
serializes them, the final count equals the initial count plus the sum
of all amounts — no admitted increment is lost, and any two
serialization orders of the same increments end at the same count.  The
caller-side read-add-write of the KV worker does not have this property (see
the counterexample). -/
theorem c6_no_lost_increments :
    (∀ (incs : List (ℤ × ℕ)) (prior : Option ClapsEntry),
       clapsCountOf (d1ApplyIncrements incs prior) =
         clapsCountOf prior + (incs.map Prod.fst).sum) ∧
    (∀ (incs incs' : List (ℤ × ℕ)) (prior : Option ClapsEntry), incs.Perm incs' →
       clapsCountOf (d1ApplyIncrements incs prior) =
         clapsCountOf (d1ApplyIncrements incs' prior)) := by
  have main : ∀ (incs : List (ℤ × ℕ)) (prior : Option ClapsEntry),
      clapsCountOf (d1ApplyIncrements incs prior) =
        clapsCountOf prior + (incs.map Prod.fst).sum := by
    intro incs
    induction incs with
    | nil => intro prior; simp [d1ApplyIncrements, clapsCountOf]
    | cons a l ih =>
        intro prior
        have step : d1ApplyIncrements (a :: l) prior =
            d1ApplyIncrements l (some (clapsUpsert a.1 a.2 prior)) := rfl
        rw [step, ih]
        have hc : clapsCountOf (some (clapsUpsert a.1 a.2 prior)) =
            clapsCountOf prior + a.1 := by
          unfold clapsCountOf clapsUpsert
          match prior with
          | none => simp
          | some e => simp
        rw [hc]
        simp
        ring
  constructor
  · exact main
  · intro incs incs' prior hperm
    rw [main, main]
    have : (incs.map Prod.fst).sum = (incs'.map Prod.fst).sum :=
      (hperm.map Prod.fst).sum_eq
    rw [this]

/-- Claim C6 witness: order-independence instantiated at the two
serialization orders of increments 2 and 3 on an absent row: both end
at count 5. -/
theorem c6_no_lost_increments_witness :
    clapsCountOf (d1ApplyIncrements [(2, 1), (3, 2)] none) =
      clapsCountOf (d1ApplyIncrements [(3, 2), (2, 1)] none) :=
  c6_no_lost_increments.2 [(2, 1), (3, 2)] [(3, 2), (2, 1)] none (List.Perm.swap _ _ _)

/-- Claim C1, code-bug evaluation: in the D1 worker the handler submits
the rate-limit upsert and the claps upsert together in one DB.batch and
only afterwards inspects the number of rows the rate-limit statement
changed, so the claps statement executes even when admission is
rejected.  Concretely, with the default ceiling 50, a rate-limit row
already at count 50 and a claps row at count 7, the POST for my-post is
answered rate-limited, yet the stored claps count has moved from 7 to 8
and the rejected rate-limit row is unchanged. -/
theorem c1_rejected_request_touches_counter :
    (d1Post envDefault d1StateAtLimit reqAtLimit).1 = D1PostResult.rateLimited ∧
    d1StateAtLimit.claps "my-post" = some ⟨7, 0⟩ ∧
    (d1Post envDefault d1StateAtLimit reqAtLimit).2.claps "my-post" =
      some ⟨8, 1700000000000⟩ ∧
    (d1Post envDefault d1StateAtLimit reqAtLimit).2.rateLimits
        (sha256Hex envDefault "203.0.113.9") "my-post" (windowStart 1700000000000) =
      some ⟨50, 0⟩ := by
  decide

/-- Claim C10: for every slug that is empty, longer than 200 characters,
or failing the slug pattern (one lowercase alphanumeric start character
followed by lowercase alphanumerics, dot, underscore, colon, apostrophe
or hyphen), the read and increment endpoints of both workers answer
invalid-slug, the state is returned unchanged, and the answer is the
same whatever the stores contain — no counter or rate-limit state is
read or written. -/
theorem c10_invalid_slug (slug : String)
    (h : slug = "" ∨ 200 < slug.length ∨ slugMatchesPattern slug = false) :
    (∀ st : D1State, d1Get st slug = .invalidSlug) ∧
    (∀ (env : Env) (st : D1State) (r : D1Request), r.slug = slug →
       d1Post env st r = (.invalidSlug, st)) ∧
    (∀ st : KVState, kvGet st slug = .invalidSlug) ∧
    (∀ (env : Env) (st : KVState) (origin : Option String) (ip : String)
       (body : Option JSNum) (now : ℕ),
       kvPost env st slug origin ip body now = (.invalidSlug, st)) := by
  have hvalid : isValidSlug slug = false := by
    unfold isValidSlug
    rcases h with h | h | h
    · subst h
      rfl
    · have : MAX_SLUG_LEN < slug.length := by
        unfold MAX_SLUG_LEN
        omega
      simp [this]
    · by_cases hlen : slug.length = 0 || MAX_SLUG_LEN < slug.length
      · simp [hlen]
      · simp [hlen, h]
  refine ⟨fun st => ?_, fun env st r hr => ?_, fun st => ?_, fun env st origin ip body now => ?_⟩
  · unfold d1Get
    simp [hvalid]
  · unfold d1Post
    rw [hr]
    simp [hvalid]
  · unfold kvGet
    simp [hvalid]
  · unfold kvPost
    simp [hvalid]

/-- Claim C10 witness: the guarantee instantiated at the empty slug, an
uppercase slug and the D1 and KV fixtures. -/
theorem c10_invalid_slug_witness :
    d1Get emptyD1State "" = .invalidSlug ∧
    kvGet emptyKVState "BAD_SLUG" = .invalidSlug ∧
    d1Post envDefault emptyD1State ⟨"", some "https://example.org", "203.0.113.9", none, 5⟩ =
      (.invalidSlug, emptyD1State) := by
  refine ⟨(c10_invalid_slug "" (Or.inl rfl)).1 emptyD1State,
    (c10_invalid_slug "BAD_SLUG" (Or.inr (Or.inr (by decide)))).2.2.1 emptyKVState,
    (c10_invalid_slug "" (Or.inl rfl)).2.1 envDefault emptyD1State _ rfl⟩

/-- Claim C8: the identity hasher is deterministic — it is a pure
function of the salt and the raw address, so two environments carrying
the same salt assign every address the same token, and the token is by
definition the digest of salt ++ ":" ++ address.  Two different salts
always feed the digest different preimages for the same address, and
for the concrete salts salt-a and salt-b the resulting tokens for the
same address are indeed different. -/
theorem c8_hasher :
    (∀ (e₁ e₂ : Env), getIpHashSalt e₁ = getIpHashSalt e₂ →
       ∀ a : String, sha256Hex e₁ a = sha256Hex e₂ a) ∧
    (∀ (s₁ s₂ a : String), s₁ ≠ s₂ → saltedMessage s₁ a ≠ saltedMessage s₂ a) ∧
    sha256Hex envSaltA "203.0.113.9" ≠ sha256Hex envSaltB "203.0.113.9" := by
  refine ⟨fun e₁ e₂ hsalt a => ?_, fun s₁ s₂ a hne heq => ?_, by decide⟩
  · unfold sha256Hex
    rw [hsalt]
  · apply hne
    unfold saltedMessage at heq
    have hdata := congrArg String.data heq
    simp only [String.data_append] at hdata
    have h2 := List.append_cancel_right (List.append_cancel_right hdata)
    cases s₁
    cases s₂
    exact congrArg String.mk h2

/-- Claim C8 witness: determinism and preimage distinctness instantiated
at the concrete salts and address of the scenario above. -/
theorem c8_hasher_witness :
    sha256Hex envSaltA "203.0.113.9" = sha256Hex envSaltA "203.0.113.9" ∧
    saltedMessage "salt-a" "203.0.113.9" ≠ saltedMessage "salt-b" "203.0.113.9" :=
  ⟨c8_hasher.1 envSaltA envSaltA rfl "203.0.113.9",
   c8_hasher.2.1 "salt-a" "salt-b" "203.0.113.9" (by decide)⟩

/-- Length of one delete batch: the batch size capped by the number of
expired rows. -/
theorem selectBatch_length (cutoff : ℤ) (rows : List RLRow) :
    (selectBatch cutoff rows).length =
      min BATCH_SIZE (rows.filter (isExpiredRow cutoff)).length := by
  simp [selectBatch, List.length_take, List.length_insertionSort]

/-- One delete batch is a sub-multiset of the expired rows. -/
theorem selectBatch_subperm (cutoff : ℤ) (rows : List RLRow) :
    List.Subperm (selectBatch cutoff rows) (rows.filter (isExpiredRow cutoff)) :=
  ((List.take_sublist _ _).subperm).trans (List.perm_insertionSort _ _).subperm

/-- Every row of a delete batch is expired. -/
theorem selectBatch_expired (cutoff : ℤ) (rows : List RLRow) :
    ∀ r ∈ selectBatch cutoff rows, isExpiredRow cutoff r = true := by
  intro r hr
  exact List.of_mem_filter ((selectBatch_subperm cutoff rows).subset hr)

/-- Multiset comparison between one delete batch and the expired rows. -/
theorem coe_batch_le (cutoff : ℤ) (rows : List RLRow) :
    ((selectBatch cutoff rows : List RLRow) : Multiset RLRow) ≤
      ↑(rows.filter (isExpiredRow cutoff)) :=
  Multiset.coe_le.mpr (selectBatch_subperm cutoff rows)

/-- The expired rows form a sub-multiset of the table. -/
theorem coe_filter_le (cutoff : ℤ) (rows : List RLRow) :
    (↑(rows.filter (isExpiredRow cutoff)) : Multiset RLRow) ≤ ↑rows :=
  Multiset.coe_le.mpr (List.filter_sublist rows).subperm

/-- List difference is multiset subtraction. -/
theorem diff_coe_eq (rows batch : List RLRow) :
    ((rows.diff batch : List RLRow) : Multiset RLRow) = ↑rows - ↑batch :=
  (Multiset.coe_sub rows batch).symm

/-- Deleting one batch removes exactly its length from the count of
expired rows. -/
theorem expired_filter_diff_length (cutoff : ℤ) (rows : List RLRow) :
    ((rows.diff (selectBatch cutoff rows)).filter (isExpiredRow cutoff)).length =
      (rows.filter (isExpiredRow cutoff)).length - (selectBatch cutoff rows).length := by
  have hb := coe_batch_le cutoff rows
  have hfb : Multiset.filter (fun r => isExpiredRow cutoff r = true)
      (↑(selectBatch cutoff rows) : Multiset RLRow) = ↑(selectBatch cutoff rows) := by
    rw [Multiset.filter_eq_self]
    intro a ha
    exact selectBatch_expired cutoff rows a (by exact_mod_cast ha)
  have key : (↑((rows.diff (selectBatch cutoff rows)).filter (isExpiredRow cutoff)) :
      Multiset RLRow) = ↑(rows.filter (isExpiredRow cutoff)) - ↑(selectBatch cutoff rows) := by
    have h1 : (↑((rows.diff (selectBatch cutoff rows)).filter (isExpiredRow cutoff)) :
        Multiset RLRow) =
        Multiset.filter (fun r => isExpiredRow cutoff r = true)
          ↑(rows.diff (selectBatch cutoff rows)) := by
      rw [Multiset.filter_coe]
      congr 1
      simp
    rw [h1, diff_coe_eq, Multiset.filter_sub, hfb]
    congr 1
    rw [Multiset.filter_coe]
    congr 1
    simp
  have hcard := congrArg Multiset.card key
  rw [Multiset.coe_card, Multiset.card_sub hb, Multiset.coe_card, Multiset.coe_card] at hcard
  exact hcard

/-- A multiset of expired rows contains no unexpired row. -/
theorem filter_not_expired_self (cutoff : ℤ) (s : Multiset RLRow)
    (h : ∀ a ∈ s, isExpiredRow cutoff a = true) :
    Multiset.filter (fun r => isExpiredRow cutoff r = false) s = 0 := by
  rw [Multiset.filter_eq_nil]
  intro a ha
  simp [h a ha]

/-- The delete loop removes exactly the expired rows: as a multiset the
result is the unexpired part of the table. -/
theorem compactLoop_ms (cutoff : ℤ) :
    ∀ (n : ℕ) (rows : List RLRow), (rows.filter (isExpiredRow cutoff)).length ≤ n →
      ((compactLoop cutoff rows : List RLRow) : Multiset RLRow) =
        Multiset.filter (fun r => isExpiredRow cutoff r = false) ↑rows := by
  intro n
  induction n with
  | zero =>
      intro rows h
      have hfil : rows.filter (isExpiredRow cutoff) = [] :=
        List.eq_nil_of_length_eq_zero (Nat.le_zero.mp h)
      have hbatch : selectBatch cutoff rows = [] := by
        simp [selectBatch, hfil]
      have hnone : ∀ a ∈ rows, ¬ isExpiredRow cutoff a = true :=
        List.filter_eq_nil_iff.mp hfil
      rw [compactLoop]
      simp only [hbatch, List.length_nil, BATCH_SIZE]
      rw [if_pos (by omega)]
      rw [List.diff_nil]
      ext a
      rw [Multiset.count_filter]
      by_cases ha : isExpiredRow cutoff a = true
      · have hnot : a ∉ rows := fun hmem => hnone a hmem ha
        simp [ha, List.count_eq_zero_of_not_mem hnot]
      · simp [eq_false_of_ne_true ha]
  | succ n ih =>
      intro rows h
      rw [compactLoop]
      by_cases hstop : (selectBatch cutoff rows).length < BATCH_SIZE
      · simp only [hstop, if_true]
        have hlen := selectBatch_length cutoff rows
        have hflen : (rows.filter (isExpiredRow cutoff)).length < BATCH_SIZE := by
          rw [hlen] at hstop
          omega
        have hball : selectBatch cutoff rows =
            (rows.filter (isExpiredRow cutoff)).insertionSort
              (fun a b => a.windowStart ≤ b.windowStart) := by
          apply List.take_of_length_le
          rw [List.length_insertionSort]
          omega
        have hperm : (selectBatch cutoff rows : Multiset RLRow) =
            ↑(rows.filter (isExpiredRow cutoff)) := by
          rw [hball]
          exact Quot.sound (List.perm_insertionSort _ _)
        rw [diff_coe_eq, hperm]
        ext a
        rw [Multiset.count_sub, Multiset.count_filter]
        by_cases ha : isExpiredRow cutoff a = true
        · have hcf : (rows.filter (isExpiredRow cutoff)).count a = rows.count a := by
            simp [List.count_filter, ha]
          simp [Multiset.coe_count, hcf, eq_false_of_ne_true, ha]
        · have hcf : (rows.filter (isExpiredRow cutoff)).count a = 0 :=
            List.count_eq_zero.mpr (fun hmem => ha (List.of_mem_filter hmem))
          simp [Multiset.coe_count, hcf, eq_false_of_ne_true ha]
      · simp only [hstop, if_false]
        have hrec := ih (rows.diff (selectBatch cutoff rows)) (by
          rw [expired_filter_diff_length cutoff rows]
          have hlen := selectBatch_length cutoff rows
          simp [BATCH_SIZE] at hlen hstop ⊢
          omega)
        rw [hrec, diff_coe_eq, Multiset.filter_sub]
        have hb0 : Multiset.filter (fun r => isExpiredRow cutoff r = false)
            (↑(selectBatch cutoff rows) : Multiset RLRow) = 0 := by
          apply filter_not_expired_self
          intro a ha
          exact selectBatch_expired cutoff rows a (by exact_mod_cast ha)
        rw [hb0]
        exact Multiset.sub_zero _

/-- Claim C9: one run of the scheduled compactor deletes exactly the
rate-limit rows whose window_start is strictly before now minus twice
the window length — the count of every such row drops to zero while the
count of every row at or after the cutoff is unchanged; each delete
statement removes at most 1000 rows; and as soon as a batch is shorter
than the batch size the loop stops, performing exactly that one final
deletion. -/
theorem c9_compactor :
    (∀ (now : ℕ) (rows : List RLRow) (r : RLRow),
       (scheduledCompaction now rows).count r =
         if (r.windowStart : ℤ) < (now : ℤ) - 2 * (RATE_LIMIT_WINDOW_MS : ℤ) then 0
         else rows.count r) ∧
    (∀ (cutoff : ℤ) (rows : List RLRow), (selectBatch cutoff rows).length ≤ BATCH_SIZE) ∧
    (∀ (cutoff : ℤ) (rows : List RLRow), (selectBatch cutoff rows).length < BATCH_SIZE →
       compactLoop cutoff rows = rows.diff (selectBatch cutoff rows)) := by
  refine ⟨fun now rows r => ?_, fun cutoff rows => ?_, fun cutoff rows h => ?_⟩
  · have hcut : (now : ℤ) - 2 * (RATE_LIMIT_WINDOW_MS : ℤ) = (now : ℤ) - 2 * 60 * 60 * 1000 := by
      norm_num [RATE_LIMIT_WINDOW_MS]
    rw [hcut]
    unfold scheduledCompaction
    generalize ((now : ℤ) - 2 * 60 * 60 * 1000 : ℤ) = c
    have hms := compactLoop_ms c (rows.filter (isExpiredRow c)).length rows le_rfl
    have hcount := congrArg (Multiset.count r) hms
    rw [Multiset.coe_count, Multiset.count_filter] at hcount
    rw [hcount]
    unfold isExpiredRow
    by_cases hexp : (r.windowStart : ℤ) < c
    · simp [hexp]
    · simp [hexp, Multiset.coe_count]
  · rw [selectBatch_length]
    exact min_le_left _ _
  · rw [compactLoop]
    simp [h]

/-- Claim C9 witness: a single expired row forms a batch of length 1,
below the batch size, so the loop stops after one deletion, which
removes that row. -/
theorem c9_compactor_witness :
    (selectBatch 100 [⟨"h", "s", 5, 1, 0⟩]).length < BATCH_SIZE ∧
    compactLoop 100 [⟨"h", "s", 5, 1, 0⟩] =
      List.diff [⟨"h", "s", 5, 1, 0⟩] (selectBatch 100 [⟨"h", "s", 5, 1, 0⟩]) :=
  ⟨by decide, c9_compactor.2.2 100 [⟨"h", "s", 5, 1, 0⟩] (by decide)⟩

/-- Debounce bookkeeping of one POST: for any key, the request either
leaves the debounce map entry unchanged or overwrites it with the
own timestamp of the request. -/
theorem d1Post_debounce_evolution (env : Env) (st : D1State) (r : D1Request) (k : String) :
    (d1Post env st r).2.lastRequestTime k = st.lastRequestTime k ∨
    (d1Post env st r).2.lastRequestTime k = some r.now := by
  unfold d1Post
  by_cases h1 : isValidSlug r.slug = false
  · simp [h1]
  · simp only [h1, if_false]
    match r.origin with
    | none => simp
    | some o =>
        by_cases h2 : o ∉ env.allowedOrigins
        · simp [h2]
        · simp only [h2, if_false]
          by_cases h3 : (r.now : ℤ) -
              (st.lastRequestTime (sha256Hex env r.ip ++ ":" ++ r.slug)).getD 0 < DEBOUNCE_MS
          · simp [h3]
          · simp only [h3, if_false, apply_ite Prod.snd, ite_self]
            by_cases h4 : k = sha256Hex env r.ip ++ ":" ++ r.slug
            · right
              simp [h4]
            · left
              simp [h4]

/-- A POST answered with a new total has passed slug validation and has
stamped the debounce map at its hashed-address:slug key with its own
timestamp. -/
theorem d1Post_ok_debounce (env : Env) (st : D1State) (r : D1Request) (c : ℤ)
    (h : (d1Post env st r).1 = .ok c) :
    isValidSlug r.slug = true ∧
    (d1Post env st r).2.lastRequestTime (sha256Hex env r.ip ++ ":" ++ r.slug) = some r.now := by
  unfold d1Post at h ⊢
  by_cases h1 : isValidSlug r.slug = false
  · simp [h1] at h
  · have hv : isValidSlug r.slug = true := by
      cases hb : isValidSlug r.slug
      · exact absurd hb h1
      · rfl
    refine ⟨hv, ?_⟩
    simp only [h1, if_false] at h ⊢
    match ho : r.origin with
    | none =>
        rw [ho] at h
        simp at h
    | some o =>
        rw [ho] at h
        by_cases h2 : o ∉ env.allowedOrigins
        · simp [h2] at h
        · simp only [h2, if_false] at h ⊢
          by_cases h3 : (r.now : ℤ) -
              (st.lastRequestTime (sha256Hex env r.ip ++ ":" ++ r.slug)).getD 0 < DEBOUNCE_MS
          · simp [h3] at h
          · simp only [h3, if_false, apply_ite Prod.snd, ite_self]
            simp

/-- A POST arriving while the debounce entry for its key is within
DEBOUNCE_MS answers too-fast and leaves the state untouched, whatever
the rate-limit and claps stores contain. -/
theorem d1Post_tooFast (env : Env) (st : D1State) (r : D1Request) (t : ℕ)
    (hkey : st.lastRequestTime (sha256Hex env r.ip ++ ":" ++ r.slug) = some t)
    (hvalid : isValidSlug r.slug = true)
    (horigin : ∃ o, r.origin = some o ∧ o ∈ env.allowedOrigins)
    (hfast : (r.now : ℤ) - t < DEBOUNCE_MS) :
    d1Post env st r = (.tooFast, st) := by
  obtain ⟨o, ho, hmem⟩ := horigin
  unfold d1Post
  rw [ho]
  have h1 : ¬ isValidSlug r.slug = false := by simp [hvalid]
  have h2 : ¬ o ∉ env.allowedOrigins := by simp [hmem]
  simp only [h1, if_false, h2]
  rw [hkey]
  simp only [Option.getD_some]
  simp [hfast]

/-- Lower bound on the debounce entry survives any run of further
requests whose timestamps are at least the bound. -/
theorem runD1_debounce_lower (env : Env) (k : String) (t0 : ℕ) (rs : List D1Request) :
    ∀ st : D1State, (∀ r ∈ rs, t0 ≤ r.now) →
      (∃ t, st.lastRequestTime k = some t ∧ t0 ≤ t) →
      ∃ t, (runD1 env st rs).lastRequestTime k = some t ∧ t0 ≤ t := by
  induction rs with
  | nil => intro st _ h; exact h
  | cons r rs ih =>
      intro st hts h
      have hstep : runD1 env st (r :: rs) = runD1 env ((d1Post env st r).2) rs := rfl
      rw [hstep]
      apply ih
      · intro q hq
        exact hts q (List.mem_cons_of_mem r hq)
      · rcases d1Post_debounce_evolution env st r k with he | he
        · obtain ⟨t, ht, hle⟩ := h
          exact ⟨t, he.trans ht, hle⟩
        · exact ⟨r.now, he, hts r (List.mem_cons_self r rs)⟩

/-- Claim C7: if a POST from a client address and slug is accepted at
time t, then any further POST for the same address and slug arriving
less than DEBOUNCE_MS = 500 ms after t — with any number of other
requests (timestamped no earlier than t) processed in between — is
rejected as too-fast with the state unchanged, and its outcome is
too-fast whatever the rate-limit and claps stores contain, so neither
store is consulted for the rejected request.  The arriving request is
assumed to carry an allowed Origin header, since the handler checks the
transport-level origin before the debounce test. -/
theorem c7_debounce (env : Env) (st : D1State) (ri rj : D1Request) (mid : List D1Request) (c : ℤ)
    (hacc : (d1Post env st ri).1 = .ok c)
    (hmid : ∀ r ∈ mid, ri.now ≤ r.now)
    (hfast : rj.now < ri.now + DEBOUNCE_MS)
    (hip : rj.ip = ri.ip) (hslug : rj.slug = ri.slug)
    (horigin : ∃ o, rj.origin = some o ∧ o ∈ env.allowedOrigins) :
    d1Post env (runD1 env (d1Post env st ri).2 mid) rj =
      (.tooFast, runD1 env (d1Post env st ri).2 mid) ∧
    (∀ (rl : String → String → ℕ → Option RLEntry) (cl : String → Option ClapsEntry),
       (d1Post env ⟨(runD1 env (d1Post env st ri).2 mid).lastRequestTime, rl, cl⟩ rj).1 =
         .tooFast) := by
  obtain ⟨hvalid, hset⟩ := d1Post_ok_debounce env st ri c hacc
  have hkeyeq : sha256Hex env rj.ip ++ ":" ++ rj.slug =
      sha256Hex env ri.ip ++ ":" ++ ri.slug := by
    rw [hip, hslug]
  have hinv := runD1_debounce_lower env (sha256Hex env ri.ip ++ ":" ++ ri.slug) ri.now mid
    ((d1Post env st ri).2) hmid ⟨ri.now, hset, le_rfl⟩
  obtain ⟨t, ht, hle⟩ := hinv
  have hvalidj : isValidSlug rj.slug = true := by rw [hslug]; exact hvalid
  have hfastj : (rj.now : ℤ) - t < DEBOUNCE_MS := by
    have : (ri.now : ℤ) ≤ t := by exact_mod_cast hle
    have h2 : (rj.now : ℤ) < ri.now + DEBOUNCE_MS := by exact_mod_cast hfast
    omega
  constructor
  · apply d1Post_tooFast env _ rj t _ hvalidj horigin hfastj
    rw [hkeyeq]
    exact ht
  · intro rl cl
    have := d1Post_tooFast env ⟨(runD1 env (d1Post env st ri).2 mid).lastRequestTime, rl, cl⟩
      rj t (by rw [hkeyeq]; exact ht) hvalidj horigin hfastj
    rw [this]

/-- Claim C7 witness: with the default environment and empty state, the
first request for my-post at t = 1700000000000 is accepted with total 1
and the identical request 300 ms later is answered too-fast with the
state unchanged. -/
theorem c7_debounce_witness :
    (d1Post envDefault emptyD1State reqFirst).1 = .ok 1 ∧
    d1Post envDefault (runD1 envDefault (d1Post envDefault emptyD1State reqFirst).2 []) reqSecond =
      (.tooFast, runD1 envDefault (d1Post envDefault emptyD1State reqFirst).2 []) :=
  ⟨by decide,
    (c7_debounce envDefault emptyD1State reqFirst reqSecond [] 1 (by decide)
      (by intro r hr; cases hr) (by decide) rfl rfl
      ⟨"https://example.org", rfl, by decide⟩).1⟩
